import Mathlib

/-!
Verification of the source-resolution and timestamp-detection subsystem of
the `preq` repository, shallowly embedded in Lean 4.

The embedding follows the Go source:
* `internal/pkg/resolve/logfactory.go` — functional options (`optsT`,
  `parseOpts`, `WithCustomFmt`, `WithStampRegex`, `WithWindow`) and the
  detection driver `NewLogFactory`;
* `internal/pkg/utils/utils.go` — `OpenRulesFile` (gzip-magic peek);
* `internal/pkg/config/config.go` — `Config.ResolveOpts` and the built-in
  default timestamp catalog;
* `internal/pkg/cli/cli.go` — `tsOpts` (window validation).

Parts of the repository referenced by tests and callers but whose
implementation files are not present (the `timez` package, `newLogSrc`,
`WithTimestampTries`, and the emission-window contract consumed by the
engine) are modelled from the specification; each such definition carries a
doc comment saying so.

External collaborators (the `format.Detect` structural sniff from
prequel-logmatch, the Go regexp engine, `time.ParseDuration`) are treated as
abstract function parameters, so every theorem quantifies over their
behaviour.
-/

/-- `TimestampFmt` is a string-typed format label (`timez.TimestampFmt`). -/
abbrev TimestampFmt := String

/-- A timestamp format spec: regex pattern plus format label
(`resolve.FmtSpec` in logfactory.go). -/
structure FmtSpec where
  Pattern : String
  Format : TimestampFmt
deriving DecidableEq, Repr

/-- The functional options of the resolve package, reified by their
observable effect on `optsT` (Go represents each as a closure
`func(*optsT)`; the constructors here are exactly the option builders the
package exports: `WithCustomFmt`, `WithStampRegex`, `WithWindow`, plus
`WithTimestampTries` which cli.go references). -/
inductive OptT where
  | withCustomFmt (regex fmt : String)
  | withStampRegex (stampRegex : List FmtSpec)
  | withWindow (window : Int)
  | withTimestampTries (tries : Nat)
deriving DecidableEq, Repr

/-- The accumulated option record (`optsT` in logfactory.go): zero values of
Go give the defaults.  The `maxTries` field is modelled from the spec
(`maxTrialLines` in Options): cli.go calls `resolve.WithTimestampTries`, whose
implementation file is not present. -/
structure optsT where
  customFmt : String := ""
  customRegex : String := ""
  stampRegex : List FmtSpec := []
  window : Int := 0
  maxTries : Nat := 0
deriving DecidableEq, Repr

/-- Apply one functional option to the accumulated record, mirroring the
bodies of `WithCustomFmt`, `WithStampRegex`, `WithWindow` in logfactory.go
(and, for `withTimestampTries`, the spec's `maxTrialLines`). -/
def applyOpt (o : optsT) : OptT → optsT
  | .withCustomFmt regex fmt => { o with customFmt := fmt, customRegex := regex }
  | .withStampRegex stampRegex => { o with stampRegex := stampRegex }
  | .withWindow window => { o with window := window }
  | .withTimestampTries tries => { o with maxTries := tries }

/-- `parseOpts` of logfactory.go: start from the zero record and apply the
options in order. -/
def parseOpts (opts : List OptT) : optsT :=
  opts.foldl applyOpt {}

/-- `(*optsT).tryCustom` of logfactory.go: a custom override is configured
when either the custom format or the custom regex is non-empty. -/
def tryCustom (o : optsT) : Bool :=
  o.customFmt != "" || o.customRegex != ""

/-- Detection outcome: Go's `(format.FactoryI, int64, error)` triple, with a
successful result `(factory, stamp)` or an error.  `Fac` abstracts
`format.FactoryI`, `Err` abstracts Go `error` values. -/
abbrev DetectResult (Fac Err : Type) := Except Err (Fac × Int)

/-- The fallback loop of `NewLogFactory` (logfactory.go lines 65–69): try
each spec in list order via `TryTimestampFormat`, breaking on the first
success; each failing attempt overwrites `err`, so when every spec fails the
error of the last spec survives, and when the list is empty the incoming
error (from `format.Detect`) survives. -/
def stampRegexLoop {Fac Err : Type}
    (tryFormat : String → TimestampFmt → String → DetectResult Fac Err)
    (data : String) : List FmtSpec → Err → DetectResult Fac Err
  | [], err => .error err
  | spec :: rest, _ =>
    match tryFormat spec.Pattern spec.Format data with
    | .ok r => .ok r
    | .error e => stampRegexLoop tryFormat data rest e

/-- `NewLogFactory` of logfactory.go.  `tryFormat` abstracts
`timez.TryTimestampFormat` and `detect` abstracts the external
`format.Detect` structural sniff; `data` is the byte sample. -/
def NewLogFactory {Fac Err : Type}
    (tryFormat : String → TimestampFmt → String → DetectResult Fac Err)
    (detect : String → DetectResult Fac Err)
    (data : String) (opts : List OptT) : DetectResult Fac Err :=
  let o := parseOpts opts
  if tryCustom o then
    tryFormat o.customRegex o.customFmt data
  else
    match detect data with
    | .ok r => .ok r
    | .error e => stampRegexLoop tryFormat data o.stampRegex e

/-- C1: with a custom pattern/format configured, `NewLogFactory` returns the
result of `TryFormat` on exactly that pair.  The right-hand side mentions
neither `detect` nor the fallback spec list, so no structural sniff, catalog
entry, or fallback spec influences the outcome — even when the custom pair
fails. -/
theorem newLogFactory_custom_override {Fac Err : Type}
    (tryFormat : String → TimestampFmt → String → DetectResult Fac Err)
    (detect : String → DetectResult Fac Err)
    (data : String) (opts : List OptT)
    (h : tryCustom (parseOpts opts) = true) :
    NewLogFactory tryFormat detect data opts =
      tryFormat (parseOpts opts).customRegex (parseOpts opts).customFmt data := by
  unfold NewLogFactory
  simp [h]

/-- Witness for C1 at a concrete input: custom regex `R` with format `F`,
a detect function and a fallback list that would both succeed, yet the
result is the (failing) custom attempt. -/
theorem newLogFactory_custom_override_witness :
    tryCustom (parseOpts [OptT.withStampRegex [⟨"P", "G"⟩], OptT.withCustomFmt "R" "F"]) = true ∧
    @NewLogFactory Nat Nat
      (fun p _ _ => if p = "R" then .error 3 else .ok (1, 5))
      (fun _ => .ok (2, 6))
      "sample" [OptT.withStampRegex [⟨"P", "G"⟩], OptT.withCustomFmt "R" "F"] =
      .error 3 := by
  refine ⟨by decide, ?_⟩
  have h := @newLogFactory_custom_override Nat Nat
    (fun p _ _ => if p = "R" then .error 3 else .ok (1, 5))
    (fun _ => .ok (2, 6))
    "sample" [OptT.withStampRegex [⟨"P", "G"⟩], OptT.withCustomFmt "R" "F"]
    (by decide)
  rw [h]
  rfl

/-- The built-in timestamp catalog: the `timestamps` entries of
`config.DefaultConfig` (config.go) in file order, with the trailing newline
of each YAML block-scalar pattern stripped as `Config.ResolveOpts` does.
Literal braces of the regexes are written with hex escapes. -/
def FormatCatalog : List FmtSpec :=
  [⟨"\"time\":(\\d\x7b16,19\x7d)", "epochany"⟩,
   ⟨"^(\\d\x7b4\x7d-\\d\x7b2\x7d-\\d\x7b2\x7dT\\d\x7b2\x7d:\\d\x7b2\x7d:\\d\x7b2\x7d(?:\\.\\d+)?(?:Z|[+\\-]\\d\x7b2\x7d:\\d\x7b2\x7d))", "rfc3339"⟩,
   ⟨"^(\\d\x7b4\x7d/\\d\x7b2\x7d/\\d\x7b2\x7d \\d\x7b2\x7d:\\d\x7b2\x7d:\\d\x7b2\x7d)", "2006/01/02 03:04:05"⟩,
   ⟨"^(\\d\x7b4\x7d-\\d\x7b2\x7d-\\d\x7b2\x7d \\d\x7b2\x7d:\\d\x7b2\x7d:\\d\x7b2\x7d\\.\\d\x7b3\x7d)", "2006-01-02 15:04:05.000"⟩,
   ⟨"^([A-Z][a-z]\x7b2\x7d\\s\x7b1,2\x7d\\d\x7b1,2\x7d\\s\\d\x7b2\x7d:\\d\x7b2\x7d:\\d\x7b2\x7d)", "Jan 2 15:04:05"⟩,
   ⟨"^(\\d\x7b4\x7d-\\d\x7b2\x7d-\\d\x7b2\x7d \\d\x7b2\x7d:\\d\x7b2\x7d:\\d\x7b2\x7d)", "2006-01-02 15:04:05"⟩,
   ⟨"^[IWEF](\\d\x7b4\x7d \\d\x7b2\x7d:\\d\x7b2\x7d:\\d\x7b2\x7d\\.\\d\x7b6\x7d)", "0102 15:04:05.000000"⟩,
   ⟨"^\\[(\\d\x7b4\x7d-\\d\x7b2\x7d-\\d\x7b2\x7d \\d\x7b2\x7d:\\d\x7b2\x7d:\\d\x7b2\x7d,\\d\x7b3\x7d)\\]", "2006-01-02 15:04:05,000"⟩,
   ⟨"^(\\d\x7b4\x7d-\\d\x7b2\x7d-\\d\x7b2\x7d \\d\x7b2\x7d:\\d\x7b2\x7d:\\d\x7b2\x7d\\.\\d\x7b6\x7d[+-]\\d\x7b4\x7d)", "2006-01-02 15:04:05.000000-0700"⟩,
   ⟨"^(\\d\x7b4\x7d/\\d\x7b2\x7d/\\d\x7b2\x7d \\d\x7b2\x7d:\\d\x7b2\x7d:\\d\x7b2\x7d)", "2006/01/02 15:04:05"⟩,
   ⟨"^(\\d\x7b2\x7d/\\d\x7b2\x7d/\\d\x7b4\x7d, \\d\x7b2\x7d:\\d\x7b2\x7d:\\d\x7b2\x7d)", "01/02/2006, 15:04:05"⟩,
   ⟨"^(\\d\x7b2\x7d [A-Z][a-z]\x7b2\x7d \\d\x7b4\x7d \\d\x7b2\x7d:\\d\x7b2\x7d:\\d\x7b2\x7d\\.\\d\x7b3\x7d)", "02 Jan 2006 15:04:05.000"⟩,
   ⟨"^(\\d\x7b4\x7d [A-Z][a-z]\x7b2\x7d \\d\x7b2\x7d \\d\x7b2\x7d:\\d\x7b2\x7d:\\d\x7b2\x7d\\.\\d\x7b3\x7d)", "2006 Jan 02 15:04:05.000"⟩,
   ⟨"^(\\d\x7b2\x7d/[A-Z][a-z]\x7b2\x7d/\\d\x7b4\x7d:\\d\x7b2\x7d:\\d\x7b2\x7d:\\d\x7b2\x7d\\.\\d\x7b3\x7d)", "02/Jan/2006:15:04:05.000"⟩,
   ⟨"^(\\d\x7b2\x7d/\\d\x7b2\x7d/\\d\x7b4\x7d \\d\x7b2\x7d:\\d\x7b2\x7d:\\d\x7b2\x7d (AM|PM))", "01/02/2006 03:04:05 PM"⟩,
   ⟨"^(\\d\x7b4\x7d [A-Z][a-z]\x7b2\x7d \\d\x7b2\x7d \\d\x7b2\x7d:\\d\x7b2\x7d:\\d\x7b2\x7d)", "2006 Jan 02 15:04:05"⟩,
   ⟨"^(\\d\x7b4\x7d-\\d\x7b2\x7d-\\d\x7b2\x7d \\d\x7b2\x7d:\\d\x7b2\x7d:\\d\x7b2\x7d\\.\\d\x7b3\x7d)", "2006-01-02 15:04:05.000"⟩,
   ⟨"/Date\\((\\d+)\\)", "epochany"⟩]

/-- Detect stub for the C2 counterexample: the structural sniff fails with
error code 7. -/
def c2DetectFail : String → DetectResult Nat Nat :=
  fun _ => .error 7

/-- TryFormat stub for the C2 counterexample: succeeds exactly on the first
catalog entry's pattern. -/
def c2TryFormat : String → TimestampFmt → String → DetectResult Nat Nat :=
  fun p _ _ => if p = "\"time\":(\\d\x7b16,19\x7d)" then .ok (1, 42) else .error 9

/-- C2 counterexample: with no caller-supplied fallback specs, `parseOpts`
leaves the fallback list empty — it is not defaulted to the built-in
catalog — and `NewLogFactory` returns the sniff's error even though
`TryFormat` on the first catalog entry would have succeeded on this
sample. -/
theorem newLogFactory_no_catalog_default_counterexample :
    (parseOpts []).stampRegex = [] ∧
    (parseOpts []).stampRegex ≠ FormatCatalog ∧
    c2TryFormat (FormatCatalog.headD ⟨"", ""⟩).Pattern
      (FormatCatalog.headD ⟨"", ""⟩).Format "sample" = .ok (1, 42) ∧
    NewLogFactory c2TryFormat c2DetectFail "sample" [] = .error 7 :=
  ⟨rfl, by decide, rfl, rfl⟩

/-- The fallback loop returns the first success in list order: failures on a
leading segment are skipped, and the first spec whose `TryFormat` succeeds
determines the result. -/
theorem stampRegexLoop_first_success {Fac Err : Type}
    (tryFormat : String → TimestampFmt → String → DetectResult Fac Err)
    (data : String) (spec : FmtSpec) (post : List FmtSpec) (r : Fac × Int)
    (hspec : tryFormat spec.Pattern spec.Format data = .ok r) :
    ∀ (pre : List FmtSpec) (e : Err),
      (∀ s ∈ pre, ∃ err, tryFormat s.Pattern s.Format data = .error err) →
      stampRegexLoop tryFormat data (pre ++ spec :: post) e = .ok r := by
  intro pre
  induction pre with
  | nil =>
    intro e _
    simp [stampRegexLoop, hspec]
  | cons s rest ih =>
    intro e hpre
    obtain ⟨err, herr⟩ := hpre s (List.mem_cons_self s rest)
    simp only [List.cons_append, stampRegexLoop, herr]
    exact ih err (fun t ht => hpre t (List.mem_cons_of_mem s ht))

/-- C2 (amended): when no custom override is set and the structural sniff
fails, `NewLogFactory` iterates the caller-supplied fallback list in list
order and returns the first spec whose `TryFormat` succeeds; and when the
caller supplied no fallback specs the list stays empty (no built-in catalog
is substituted inside detection). -/
theorem newLogFactory_fallback_order {Fac Err : Type}
    (tryFormat : String → TimestampFmt → String → DetectResult Fac Err)
    (detect : String → DetectResult Fac Err)
    (data : String) (opts : List OptT) (e : Err)
    (pre : List FmtSpec) (spec : FmtSpec) (post : List FmtSpec) (r : Fac × Int)
    (hcustom : tryCustom (parseOpts opts) = false)
    (hdetect : detect data = .error e)
    (hsplit : (parseOpts opts).stampRegex = pre ++ spec :: post)
    (hpre : ∀ s ∈ pre, ∃ err, tryFormat s.Pattern s.Format data = .error err)
    (hspec : tryFormat spec.Pattern spec.Format data = .ok r) :
    NewLogFactory tryFormat detect data opts = .ok r ∧
    (parseOpts []).stampRegex = [] := by
  constructor
  · unfold NewLogFactory
    simp only [hcustom, Bool.false_eq_true, if_false, hdetect, hsplit]
    exact stampRegexLoop_first_success tryFormat data spec post r hspec pre e hpre
  · rfl

/-- Witness for C2's amended theorem: two fallback specs, the first fails,
the second succeeds, sniff fails; detection returns the second spec's
result. -/
theorem newLogFactory_fallback_order_witness :
    @NewLogFactory Nat Nat
      (fun p _ _ => if p = "B" then .ok (2, 9) else .error 4)
      (fun _ => .error 7)
      "sample" [OptT.withStampRegex [⟨"A", "fa"⟩, ⟨"B", "fb"⟩]] = .ok (2, 9) :=
  (newLogFactory_fallback_order
    (fun p _ _ => if p = "B" then .ok (2, 9) else .error 4)
    (fun _ => .error 7)
    "sample" [OptT.withStampRegex [⟨"A", "fa"⟩, ⟨"B", "fb"⟩]] 7
    [⟨"A", "fa"⟩] ⟨"B", "fb"⟩ [] (2, 9)
    (by decide) rfl rfl
    (by intro s hs; refine ⟨4, ?_⟩; simp at hs; simp [hs]) rfl).1

/-- When every spec in the list fails, the fallback loop returns the error
of the last spec tried, or the incoming error when the list is empty. -/
theorem stampRegexLoop_all_fail {Fac Err : Type}
    (tryFormat : String → TimestampFmt → String → DetectResult Fac Err)
    (data : String) (errOf : FmtSpec → Err) :
    ∀ (l : List FmtSpec) (e : Err),
      (∀ s ∈ l, tryFormat s.Pattern s.Format data = .error (errOf s)) →
      stampRegexLoop tryFormat data l e = .error ((l.map errOf).getLastD e) := by
  intro l
  induction l with
  | nil => intro e _; rfl
  | cons s rest ih =>
    intro e hall
    have hs := hall s (List.mem_cons_self s rest)
    simp only [stampRegexLoop, hs, List.map_cons, List.getLastD_cons]
    exact ih (errOf s) (fun t ht => hall t (List.mem_cons_of_mem s ht))

/-- C7: when no custom override is set, the sniff fails with `e`, and every
fallback spec fails, `NewLogFactory` returns the error of the last candidate
tried: the last fallback spec's error when fallbacks exist, and the sniff's
own error `e` when the fallback list is empty (the factory component is
`none`, i.e. the `.error` constructor carries no factory). -/
theorem newLogFactory_exhausted_last_error {Fac Err : Type}
    (tryFormat : String → TimestampFmt → String → DetectResult Fac Err)
    (detect : String → DetectResult Fac Err)
    (data : String) (opts : List OptT) (e : Err) (errOf : FmtSpec → Err)
    (hcustom : tryCustom (parseOpts opts) = false)
    (hdetect : detect data = .error e)
    (hall : ∀ s ∈ (parseOpts opts).stampRegex,
      tryFormat s.Pattern s.Format data = .error (errOf s)) :
    NewLogFactory tryFormat detect data opts =
      .error (((parseOpts opts).stampRegex.map errOf).getLastD e) := by
  unfold NewLogFactory
  simp only [hcustom, Bool.false_eq_true, if_false, hdetect]
  exact stampRegexLoop_all_fail tryFormat data errOf (parseOpts opts).stampRegex e hall

/-- Witness for C7: sniff fails with 7, both fallback specs fail (errors 4
then 5); the overall error is the last spec's error 5.  With no fallback
specs the same theorem yields the sniff's error 7. -/
theorem newLogFactory_exhausted_last_error_witness :
    @NewLogFactory Nat Nat
      (fun p _ _ => if p = "A" then .error 4 else .error 5)
      (fun _ => .error 7)
      "sample" [OptT.withStampRegex [⟨"A", "fa"⟩, ⟨"B", "fb"⟩]] = .error 5 ∧
    @NewLogFactory Nat Nat
      (fun p _ _ => if p = "A" then .error 4 else .error 5)
      (fun _ => .error 7) "sample" [] = .error 7 := by
  constructor
  · have h := @newLogFactory_exhausted_last_error Nat Nat
      (fun p _ _ => if p = "A" then .error 4 else .error 5)
      (fun _ => .error 7)
      "sample" [OptT.withStampRegex [⟨"A", "fa"⟩, ⟨"B", "fb"⟩]] 7
      (fun s => if s.Pattern = "A" then 4 else 5)
      (by decide) rfl
      (by intro s hs
          have hcs : s = (⟨"A", "fa"⟩ : FmtSpec) ∨ s = (⟨"B", "fb"⟩ : FmtSpec) := by
            simpa [parseOpts, applyOpt] using hs
          rcases hcs with h | h <;> subst h <;> rfl)
    simpa using h
  · have h := @newLogFactory_exhausted_last_error Nat Nat
      (fun p _ _ => if p = "A" then .error 4 else .error 5)
      (fun _ => .error 7)
      "sample" [] 7 (fun _ => 0)
      (by decide) rfl
      (by intro s hs; simp [parseOpts] at hs)
    simpa using h

/-- C4: detection is deterministic — `NewLogFactory` is a pure function of
the sample bytes and the options, so two calls with byte-for-byte identical
data and identical options yield the identical outcome (same factory and
first timestamp on success, same error on failure). -/
theorem newLogFactory_deterministic {Fac Err : Type}
    (tryFormat : String → TimestampFmt → String → DetectResult Fac Err)
    (detect : String → DetectResult Fac Err)
    (data₁ data₂ : String) (opts₁ opts₂ : List OptT)
    (hd : data₁ = data₂) (ho : opts₁ = opts₂) :
    NewLogFactory tryFormat detect data₁ opts₁ =
      NewLogFactory tryFormat detect data₂ opts₂ := by
  subst hd
  subst ho
  rfl

/-- Witness for C4 at concrete inputs: two identical calls give the same
result. -/
theorem newLogFactory_deterministic_witness :
    @NewLogFactory Nat Nat
      (fun _ _ _ => .ok (1, 4)) (fun _ => .error 2) "d" [OptT.withWindow 3] =
    @NewLogFactory Nat Nat
      (fun _ _ _ => .ok (1, 4)) (fun _ => .error 2) "d" [OptT.withWindow 3] :=
  newLogFactory_deterministic (fun _ _ _ => .ok (1, 4)) (fun _ => .error 2)
    "d" "d" [OptT.withWindow 3] [OptT.withWindow 3] rfl rfl

/-- Error raised when opening a source fails (the two-byte peek hits end of
file on an empty input, mirroring the `file.Read` error path of
`OpenRulesFile` in utils.go). -/
inductive OpenErr where
  | readErr
deriving DecidableEq, Repr

/-- The reader returned by `OpenRulesFile`: either the raw file data or the
file data wrapped in a transparent gzip decompressor. -/
inductive RulesReader where
  | plainReader (data : List Nat)
  | gzipReader (data : List Nat)
deriving DecidableEq, Repr

/-- The two-byte magic test of `OpenRulesFile` (utils.go lines 142–152): the
peek buffer `buf` is zero-initialised, `file.Read(buf[:])` fills as many of
the first two bytes as the file has, and the check is
`buf[0] == 0x1f && buf[1] == 0x8b`. -/
def gzipMagic (data : List Nat) : Bool :=
  data.headD 0 = 0x1f && (data.drop 1).headD 0 = 0x8b

/-- `OpenRulesFile` of utils.go over the file's bytes: an empty file fails
at the peek (`Read` returns `io.EOF`); otherwise the two peeked bytes are
compared with the gzip magic and the position is seeked back to the start,
so the returned reader always carries the full data. -/
def OpenRulesFile (data : List Nat) : Except OpenErr RulesReader :=
  if data.isEmpty then .error .readErr
  else if gzipMagic data then .ok (.gzipReader data)
  else .ok (.plainReader data)

/-- A resolved log source's observable fields: whether the reader is
gzip-wrapped, the reported size, and the reorder window. -/
structure LogData where
  isGzip : Bool
  size : Int
  window : Int
deriving DecidableEq, Repr

/-- Modelled from the spec: `newLogSrc` of the resolve package is not under
src (only its test, `TestNewLogSrc`): it opens the path with the same
two-byte gzip peek as `OpenRulesFile`, reports `size == -1` for
gzip-wrapped sources and the exact filesystem byte count otherwise, and
carries the configured window. -/
def newLogSrc (data : List Nat) (opts : List OptT) : Except OpenErr LogData :=
  match OpenRulesFile data with
  | .error e => .error e
  | .ok (.gzipReader _) => .ok ⟨true, -1, (parseOpts opts).window⟩
  | .ok (.plainReader d) => .ok ⟨false, (d.length : Int), (parseOpts opts).window⟩

/-- Modelled from the spec: `PipeStdin` wraps standard input as a source
whose size is permanently unknown (a live stream). -/
def stdinLogSrc (opts : List OptT) : LogData :=
  ⟨false, -1, (parseOpts opts).window⟩

/-- The magic test holds exactly when the first two bytes are 0x1F, 0x8B
(a one-byte or empty file never passes: the unfilled peek byte stays 0). -/
theorem gzipMagic_iff (data : List Nat) :
    gzipMagic data = true ↔ data.take 2 = [0x1f, 0x8b] := by
  match data with
  | [] => simp [gzipMagic]
  | [a] =>
    simp only [gzipMagic, List.headD_cons, List.drop_succ_cons, List.drop_zero,
      List.headD_nil, List.take_succ_cons, List.take_nil, Bool.and_eq_true,
      decide_eq_true_eq]
    constructor
    · rintro ⟨-, h⟩; omega
    · intro h; simp at h
  | a :: b :: rest =>
    simp [gzipMagic, List.take_succ_cons]

/-- C3: a successfully opened source reports `size == -1` exactly when the
first two peeked bytes are the gzip magic 0x1F,0x8B (in which case the
reader is the gzip-wrapping one); otherwise the raw reader is returned and
the size is the exact byte count from the filesystem.  Stdin sources report
`size == -1` as a live stream. -/
theorem newLogSrc_size_sentinel (data : List Nat) (opts : List OptT) (src : LogData)
    (h : newLogSrc data opts = .ok src) :
    (src.size = -1 ↔ data.take 2 = [0x1f, 0x8b]) ∧
    (src.isGzip = true ↔ data.take 2 = [0x1f, 0x8b]) ∧
    (src.isGzip = false → src.size = (data.length : Int)) ∧
    (OpenRulesFile data = .ok (if src.isGzip then .gzipReader data else .plainReader data)) ∧
    (stdinLogSrc opts).size = -1 := by
  rw [← gzipMagic_iff]
  unfold newLogSrc OpenRulesFile at *
  by_cases hemp : data.isEmpty
  · simp [hemp] at h
  · by_cases hmag : gzipMagic data
    · simp [hemp, hmag] at h
      subst h
      simp [hemp, hmag, stdinLogSrc]
    · simp [hemp, hmag] at h
      subst h
      refine ⟨?_, ?_, ?_, ?_, rfl⟩
      · simp [hmag]
      · simp [hmag]
      · intro _; rfl
      · simp [hemp, hmag]

/-- Witness for C3: a four-byte gzip file reports size −1 with a
gzip-wrapped reader, and via a second application a three-byte plain file
reports exactly its byte count. -/
theorem newLogSrc_size_sentinel_witness :
    ((⟨true, -1, 0⟩ : LogData).size = -1 ↔ [0x1f, 0x8b, 8, 0].take 2 = [0x1f, 0x8b]) ∧
    ((⟨false, 3, 0⟩ : LogData).size = -1 ↔ ([65, 66, 10] : List Nat).take 2 = [0x1f, 0x8b]) := by
  constructor
  · exact (newLogSrc_size_sentinel [0x1f, 0x8b, 8, 0] [] ⟨true, -1, 0⟩ rfl).1
  · exact (newLogSrc_size_sentinel [65, 66, 10] [] ⟨false, 3, 0⟩ rfl).1

/-- Modelled from the spec: the `timez` digit-string parser (the `timez`
package implementation is not under src, only its test): a captured string
of decimal digits is converted to its numeric value, any other string is a
parse failure. -/
def digitsToNat (s : String) : Option Nat :=
  if s.length > 0 && s.data.all Char.isDigit then
    some (s.data.foldl (fun acc c => acc * 10 + (c.toNat - 48)) 0)
  else none

/-- Modelled from the spec: the epoch-any magnitude classification (§4.2):
the captured value is classified by magnitude into seconds, milliseconds,
microseconds, or nanoseconds since the Unix epoch (10-digit ≈ seconds,
13-digit ≈ milliseconds, 16–19-digit ≈ nanoseconds for the current era) and
uniformly converted to nanoseconds. -/
def epochAnyNanos (n : Nat) : Nat :=
  if n < 100000000000 then n * 1000000000
  else if n < 100000000000000 then n * 1000000
  else if n < 100000000000000000 then n * 1000
  else n

/-- Modelled from the spec: the fixed millisecond-epoch format converts the
captured value to nanoseconds at millisecond scale. -/
def epochMillisNanos (n : Nat) : Nat :=
  n * 1000000

/-- The bound parse function for `timez.FmtEpochAny`: digits, then
magnitude classification. -/
def epochAnyParse (s : String) : Option Nat :=
  (digitsToNat s).map epochAnyNanos

/-- The bound parse function for `timez.FmtEpochMillis`. -/
def epochMillisParse (s : String) : Option Nat :=
  (digitsToNat s).map epochMillisNanos

/-- C5: a captured "1000" under epoch-any is classified as seconds and
yields 1000·10⁹ ns; a 19-digit capture such as 1735800000000000000 is
classified as nanosecond-scale and yields that same instant; a captured
"42" under the millisecond-epoch format yields exactly 42·10⁶ ns. -/
theorem epoch_parsers_magnitude :
    epochAnyParse "1000" = some (1000 * 1000000000) ∧
    epochAnyParse "1735800000000000000" = some 1735800000000000000 ∧
    epochMillisParse "42" = some (42 * 1000000) :=
  ⟨rfl, rfl, rfl⟩

/-- Typed failure of a trial scan (`timez.ErrDetectionFailed`). -/
inductive TryErr where
  | detectionFailed
deriving DecidableEq, Repr

/-- Modelled from the spec: the line scan inside `timez.TryTimestampFormat`
(the `timez` implementation is not under src, only its test): try the
pattern's capture group plus the format's parse function — together the
`hit` function — on successive lines, at most `maxTries` lines, returning
the first success and `DetectionFailed` when the budget or the lines run
out. -/
def tryLines (hit : String → Option Int) : List String → Nat → Except TryErr Int
  | _, 0 => .error .detectionFailed
  | [], _ + 1 => .error .detectionFailed
  | l :: rest, n + 1 =>
    match hit l with
    | some ts => .ok ts
    | none => tryLines hit rest n

/-- Split a character list at newline characters, accumulating the current
line in reverse (Go's `bytes.Split(data, []byte("\n"))`). -/
def splitLinesAux (cur : List Char) : List Char → List (List Char)
  | [] => [cur.reverse]
  | c :: rest =>
    if c = '\n' then cur.reverse :: splitLinesAux [] rest
    else splitLinesAux (c :: cur) rest

/-- The newline-delimited lines of a sample. -/
def splitLines (data : String) : List String :=
  (splitLinesAux [] data.data).map fun cs => ⟨cs⟩

/-- Modelled from the spec: `timez.TryTimestampFormat` scans the
newline-delimited lines of the sample with the compiled pattern and parse
function (`hit`), up to `maxTries` lines. -/
def TryTimestampFormat (hit : String → Option Int) (data : String)
    (maxTries : Nat) : Except TryErr Int :=
  tryLines hit (splitLines data) maxTries

/-- If every line within the budget misses, the scan fails with
`DetectionFailed`. -/
theorem tryLines_all_miss (hit : String → Option Int) :
    ∀ (lines : List String) (n : Nat),
      (∀ l ∈ lines.take n, hit l = none) →
      tryLines hit lines n = .error .detectionFailed := by
  intro lines
  induction lines with
  | nil => intro n _; cases n <;> rfl
  | cons l rest ih =>
    intro n hmiss
    cases n with
    | zero => rfl
    | succ k =>
      have hl : hit l = none := hmiss l (by simp [List.take_succ_cons])
      simp only [tryLines, hl]
      exact ih k (fun t ht => hmiss t (by simp [List.take_succ_cons]; right; exact ht))

/-- Shrinking the budget cannot change a successful value, only turn it into
`DetectionFailed`: the scan returns the first hit, so if it is still within
the smaller budget the same value is found. -/
theorem tryLines_budget_mono (hit : String → Option Int) :
    ∀ (lines : List String) (m m' : Nat) (ts : Int), m' ≤ m →
      tryLines hit lines m = .ok ts →
      tryLines hit lines m' = .ok ts ∨
        tryLines hit lines m' = .error .detectionFailed := by
  intro lines
  induction lines with
  | nil =>
    intro m m' ts _ hok
    cases m <;> simp [tryLines] at hok
  | cons l rest ih =>
    intro m m' ts hle hok
    cases m with
    | zero => simp [tryLines] at hok
    | succ k =>
      cases m' with
      | zero => right; rfl
      | succ j =>
        cases hl : hit l with
        | some v =>
          simp only [tryLines, hl] at hok ⊢
          exact Or.inl hok
        | none =>
          simp only [tryLines, hl] at hok ⊢
          exact ih k j ts (Nat.succ_le_succ_iff.mp hle) hok

/-- C6: `TryFormat` scans at most `maxTries` newline-delimited lines of the
sample, succeeding on the first line that both matches and parses (the
`hit` composition); if every line within the budget misses the scan fails
with `DetectionFailed`, and reducing the budget from `m` to `m' ≤ m` never
changes a found value — it can only turn success into `DetectionFailed`. -/
theorem tryTimestampFormat_budget (hit : String → Option Int) (data : String)
    (m m' : Nat) (ts : Int) (hle : m' ≤ m) :
    ((∀ l ∈ (splitLines data).take m, hit l = none) →
      TryTimestampFormat hit data m = .error .detectionFailed) ∧
    (TryTimestampFormat hit data m = .ok ts →
      TryTimestampFormat hit data m' = .ok ts ∨
        TryTimestampFormat hit data m' = .error .detectionFailed) := by
  constructor
  · intro hmiss
    exact tryLines_all_miss hit (splitLines data) m hmiss
  · intro hok
    exact tryLines_budget_mono hit (splitLines data) m m' ts hle hok

/-- Witness for C6: on the sample "miss\n2025 ok\nlate", with a hit function
recognising lines starting at "2025", budget 3 finds the hit on line 2 and
budget 2 still finds the same value; a separate application with a hit on
the third line only shows budget 2 fails with DetectionFailed. -/
theorem tryTimestampFormat_budget_witness :
    (TryTimestampFormat (fun l => if l = "2025 ok" then some 77 else none)
      "miss\n2025 ok\nlate" 3 = .ok 77 ∨
     TryTimestampFormat (fun l => if l = "2025 ok" then some 77 else none)
      "miss\n2025 ok\nlate" 3 = .error .detectionFailed) ∧
    TryTimestampFormat (fun l => if l = "late" then some 88 else none)
      "miss\n2025 ok\nlate" 2 = .error .detectionFailed := by
  constructor
  · exact (tryTimestampFormat_budget
      (fun l => if l = "2025 ok" then some 77 else none)
      "miss\n2025 ok\nlate" 3 3 77 (Nat.le_refl 3)).2 rfl
  · exact (tryTimestampFormat_budget
      (fun l => if l = "late" then some 88 else none)
      "miss\n2025 ok\nlate" 2 2 88 (Nat.le_refl 2)).1 (by decide)

/-- White space as trimmed by Go's `strings.TrimSpace` (`unicode.IsSpace`),
restricted to the Latin-1 space characters: space, tab, newline, vertical
tab, form feed, carriage return, next-line and no-break space. -/
def isSpaceChar (c : Char) : Bool :=
  c = ' ' || c = '\t' || c = '\n' || c = '\r' ||
  c = Char.ofNat 11 || c = Char.ofNat 12 || c = Char.ofNat 0x85 || c = Char.ofNat 0xA0

/-- `strings.TrimSpace`: drop white space from both ends of the string. -/
def trimSpace (s : String) : String :=
  ⟨(s.data.dropWhile isSpaceChar).rdropWhile isSpaceChar⟩

/-- A configured timestamp regex entry (`config.Regex`): YAML `pattern` and
`format` fields. -/
structure Regex where
  Pattern : String
  Format : String
deriving DecidableEq, Repr

/-- The configuration fields relevant to source resolution
(`config.Config`): the `timestamps` list. -/
structure Config where
  TimestampRegexes : List Regex
deriving DecidableEq, Repr

/-- `Config.ResolveOpts` of config.go: when timestamp regexes are
configured, emit one `WithStampRegex` option whose specs carry the
whitespace-trimmed pattern and format of each entry, in configuration
order; otherwise emit no options. -/
def ResolveOpts (c : Config) : List OptT :=
  if 0 < c.TimestampRegexes.length then
    [OptT.withStampRegex (c.TimestampRegexes.map fun r =>
      ⟨trimSpace r.Pattern, trimSpace r.Format⟩)]
  else []

/-- The first element surviving `dropWhile p` dissatisfies `p`. -/
theorem head?_dropWhile_false (p : Char → Bool) :
    ∀ (l : List Char) (c : Char), (l.dropWhile p).head? = some c → p c = false := by
  intro l
  induction l with
  | nil => intro c h; simp at h
  | cons a t ih =>
    intro c h
    rw [List.dropWhile_cons] at h
    by_cases hp : p a
    · rw [if_pos hp] at h
      exact ih c h
    · rw [if_neg hp] at h
      simp at h
      rw [← h]
      simpa using hp

/-- A list is its `rdropWhile` part followed by its `rtakeWhile` part. -/
theorem rdropWhile_append_rtakeWhile (p : Char → Bool) (l : List Char) :
    l.rdropWhile p ++ l.rtakeWhile p = l := by
  rw [List.rdropWhile, List.rtakeWhile, ← List.reverse_append,
    List.takeWhile_append_dropWhile, List.reverse_reverse]

/-- The head of a list's `rdropWhile p` part, when present, is the head of
the list itself. -/
theorem head?_rdropWhile (p : Char → Bool) (l : List Char) (c : Char)
    (h : (l.rdropWhile p).head? = some c) : l.head? = some c := by
  have hsplit := rdropWhile_append_rtakeWhile p l
  cases hd : l.rdropWhile p with
  | nil => rw [hd] at h; simp at h
  | cons x t =>
    rw [hd] at h hsplit
    simp at h
    rw [← hsplit, ← h]
    rfl

/-- C10: `Config.ResolveOpts` contributes no fallback option when the
configuration holds no timestamp regexes, and otherwise contributes exactly
one `WithStampRegex` option whose specs are the configured entries with
leading and trailing whitespace (including a trailing newline) stripped from
both pattern and format: every trimmed string is the original minus an
all-whitespace leading and trailing segment, and neither starts nor ends in
whitespace. -/
theorem resolveOpts_trimmed (c : Config) :
    (c.TimestampRegexes = [] → ResolveOpts c = []) ∧
    (c.TimestampRegexes ≠ [] →
      ResolveOpts c = [OptT.withStampRegex (c.TimestampRegexes.map fun r =>
        ⟨trimSpace r.Pattern, trimSpace r.Format⟩)]) ∧
    (∀ s : String, ∃ lead trail : List Char,
      lead.all isSpaceChar ∧ trail.all isSpaceChar ∧
      s.data = lead ++ (trimSpace s).data ++ trail ∧
      (∀ c0, (trimSpace s).data.head? = some c0 → isSpaceChar c0 = false) ∧
      (∀ c0, (trimSpace s).data.getLast? = some c0 → isSpaceChar c0 = false)) := by
  refine ⟨?_, ?_, ?_⟩
  · intro h
    simp [ResolveOpts, h]
  · intro h
    have : 0 < c.TimestampRegexes.length := List.length_pos.mpr h
    simp [ResolveOpts, this]
  · intro s
    refine ⟨s.data.takeWhile isSpaceChar,
      (s.data.dropWhile isSpaceChar).rtakeWhile isSpaceChar, ?_, ?_, ?_, ?_, ?_⟩
    · exact List.all_eq_true.mpr fun c0 hc0 => List.mem_takeWhile_imp hc0
    · exact List.all_eq_true.mpr fun c0 hc0 => List.mem_rtakeWhile_imp hc0
    · show s.data = _ ++ (s.data.dropWhile isSpaceChar).rdropWhile isSpaceChar ++ _
      rw [List.append_assoc, rdropWhile_append_rtakeWhile,
        List.takeWhile_append_dropWhile]
    · intro c0 h0
      exact head?_dropWhile_false isSpaceChar s.data c0
        (head?_rdropWhile isSpaceChar _ c0 h0)
    · intro c0 h0
      have hne : (s.data.dropWhile isSpaceChar).rdropWhile isSpaceChar ≠ [] := by
        intro hnil
        rw [show (trimSpace s).data =
          (s.data.dropWhile isSpaceChar).rdropWhile isSpaceChar from rfl, hnil] at h0
        simp at h0
      have hlast := List.rdropWhile_last_not isSpaceChar
        (s.data.dropWhile isSpaceChar) hne
      have : (trimSpace s).data.getLast? =
          some (((s.data.dropWhile isSpaceChar).rdropWhile isSpaceChar).getLast hne) := by
        exact List.getLast?_eq_getLast _ hne
      rw [this] at h0
      simp at h0
      rw [← h0]
      simpa using hlast

/-- Witness for C10 at concrete inputs: an empty configuration produces no
options, and a configuration entry with a trailing block-scalar newline has
it stripped. -/
theorem resolveOpts_trimmed_witness :
    ResolveOpts ⟨[]⟩ = [] ∧
    ResolveOpts ⟨[⟨" ^(\\d+)\n", "rfc3339\n"⟩]⟩ =
      [OptT.withStampRegex [⟨"^(\\d+)", "rfc3339"⟩]] := by
  constructor
  · exact (resolveOpts_trimmed ⟨[]⟩).1 rfl
  · have h := (resolveOpts_trimmed ⟨[⟨" ^(\\d+)\n", "rfc3339\n"⟩]⟩).2.1 (by simp)
    rw [h]
    rfl

/-- The CLI flags feeding `tsOpts` (cli.go `Options`): the custom regex
(`-x`), the custom format (`-t`), the window duration string (`-w`), and the
trial-line count (`-k`). -/
structure CliOptions where
  Regex : String
  Format : String
  Window : String
  Skip : Nat
deriving DecidableEq, Repr

/-- A fatal configuration failure: cli.go logs and exits when the window
duration fails to parse or is negative. -/
inductive CliErr where
  | configError
deriving DecidableEq, Repr

/-- The custom-format step of `tsOpts` (cli.go lines 56–58): when either
custom flag is non-empty, append a `WithCustomFmt` option. -/
def customOpts (resolved : List OptT) (o : CliOptions) : List OptT :=
  if o.Regex != "" || o.Format != "" then
    resolved ++ [OptT.withCustomFmt o.Regex o.Format]
  else resolved

/-- `tsOpts` of cli.go: start from `Config.ResolveOpts`, add the custom
override when flagged, validate and add the window (rejecting an unparsable
or negative duration before any source is resolved), and finally add the
trial-line count.  `parseDuration` abstracts Go's `time.ParseDuration`
(`none` = parse error). -/
def tsOpts (parseDuration : String → Option Int) (c : Config)
    (o : CliOptions) : Except CliErr (List OptT) :=
  if o.Window != "" then
    match parseDuration o.Window with
    | none => .error .configError
    | some w =>
      if w < 0 then .error .configError
      else .ok (customOpts (ResolveOpts c) o ++
        [OptT.withWindow w, OptT.withTimestampTries o.Skip])
  else .ok (customOpts (ResolveOpts c) o ++ [OptT.withTimestampTries o.Skip])

/-- Folding options whose every `withWindow` payload is non-negative keeps
the accumulated window non-negative. -/
theorem foldl_window_nonneg :
    ∀ (l : List OptT) (o : optsT),
      (∀ w : Int, OptT.withWindow w ∈ l → 0 ≤ w) → 0 ≤ o.window →
      0 ≤ (l.foldl applyOpt o).window := by
  intro l
  induction l with
  | nil => intro o _ h0; exact h0
  | cons x rest ih =>
    intro o hmem h0
    rw [List.foldl_cons]
    cases x with
    | withWindow w =>
      exact ih _ (fun w' hw' => hmem w' (List.mem_cons_of_mem _ hw'))
        (hmem w (List.mem_cons_self _ _))
    | withCustomFmt regex fmt =>
      exact ih _ (fun w' hw' => hmem w' (List.mem_cons_of_mem _ hw')) h0
    | withStampRegex specs =>
      exact ih _ (fun w' hw' => hmem w' (List.mem_cons_of_mem _ hw')) h0
    | withTimestampTries tries =>
      exact ih _ (fun w' hw' => hmem w' (List.mem_cons_of_mem _ hw')) h0

/-- Folding options containing no `withWindow` leaves the window field
untouched. -/
theorem foldl_window_absent :
    ∀ (l : List OptT) (o : optsT),
      (∀ w : Int, OptT.withWindow w ∉ l) →
      (l.foldl applyOpt o).window = o.window := by
  intro l
  induction l with
  | nil => intro o _; rfl
  | cons x rest ih =>
    intro o hmem
    rw [List.foldl_cons]
    cases x with
    | withWindow w => exact absurd (List.mem_cons_self _ _) (hmem w)
    | withCustomFmt regex fmt =>
      exact ih _ (fun w' hw' => hmem w' (List.mem_cons_of_mem _ hw'))
    | withStampRegex specs =>
      exact ih _ (fun w' hw' => hmem w' (List.mem_cons_of_mem _ hw'))
    | withTimestampTries tries =>
      exact ih _ (fun w' hw' => hmem w' (List.mem_cons_of_mem _ hw'))

/-- `Config.ResolveOpts` never produces a window option. -/
theorem resolveOpts_no_window (c : Config) (w : Int) :
    OptT.withWindow w ∉ ResolveOpts c := by
  intro hw
  unfold ResolveOpts at hw
  by_cases hlen : 0 < c.TimestampRegexes.length
  · rw [if_pos hlen] at hw
    simp at hw
  · rw [if_neg hlen] at hw
    simp at hw

/-- The custom-format step never produces a window option either. -/
theorem customOpts_no_window (c : Config) (o : CliOptions) (w : Int) :
    OptT.withWindow w ∉ customOpts (ResolveOpts c) o := by
  intro hw
  unfold customOpts at hw
  by_cases hc : (o.Regex != "" || o.Format != "") = true
  · rw [if_pos hc] at hw
    rcases List.mem_append.mp hw with h1 | h2
    · exact resolveOpts_no_window c w h1
    · simp at h2
  · rw [if_neg hc] at hw
    exact resolveOpts_no_window c w hw

/-- C8: every option list `tsOpts` lets through yields a non-negative
window after `parseOpts` — a negative or unparsable `-w` duration is
rejected before any source is resolved — and when no window is configured
the window keeps its default 0. -/
theorem tsOpts_window_nonneg (parseDuration : String → Option Int)
    (c : Config) (o : CliOptions) (opts : List OptT)
    (h : tsOpts parseDuration c o = .ok opts) :
    0 ≤ (parseOpts opts).window ∧
    (o.Window = "" → (parseOpts opts).window = 0) := by
  unfold tsOpts at h
  by_cases hwin : (o.Window != "") = true
  · rw [if_pos hwin] at h
    cases hpd : parseDuration o.Window with
    | none => rw [hpd] at h; exact absurd h (by simp)
    | some w =>
      rw [hpd] at h
      dsimp only at h
      by_cases hneg : w < 0
      · rw [if_pos hneg] at h; exact absurd h (by simp)
      · rw [if_neg hneg] at h
        have hopts : opts = customOpts (ResolveOpts c) o ++
            [OptT.withWindow w, OptT.withTimestampTries o.Skip] := by
          simpa using h.symm
        constructor
        · subst hopts
          refine foldl_window_nonneg _ _ ?_ (by simp)
          intro w' hw'
          rcases List.mem_append.mp hw' with h1 | h2
          · exact absurd h1 (customOpts_no_window c o w')
          · simp at h2
            rw [h2]
            omega
        · intro hemp
          rw [hemp] at hwin
          simp at hwin
  · rw [if_neg hwin] at h
    have hopts : opts = customOpts (ResolveOpts c) o ++
        [OptT.withTimestampTries o.Skip] := by
      simpa using h.symm
    have habs : (parseOpts opts).window = 0 := by
      subst hopts
      refine foldl_window_absent _ _ ?_
      intro w' hw'
      rcases List.mem_append.mp hw' with h1 | h2
      · exact customOpts_no_window c o w' h1
      · simp at h2
    exact ⟨by rw [habs], fun _ => habs⟩

/-- Witness for C8: with `-w 5s` parsing to 5·10⁹ ns, the resolved window
is 5·10⁹ ≥ 0; the second application covers the default-0 case. -/
theorem tsOpts_window_nonneg_witness :
    (0 ≤ (parseOpts [OptT.withWindow 5000000000,
        OptT.withTimestampTries 50]).window ∧
      ("5s" = "" → (parseOpts [OptT.withWindow 5000000000,
        OptT.withTimestampTries 50]).window = 0)) ∧
    ((parseOpts [OptT.withTimestampTries 50]).window = 0) := by
  constructor
  · exact tsOpts_window_nonneg (fun s => if s = "5s" then some 5000000000 else none)
      ⟨[]⟩ ⟨"", "", "5s", 50⟩ [OptT.withWindow 5000000000, OptT.withTimestampTries 50] rfl
  · exact (tsOpts_window_nonneg (fun _ => none)
      ⟨[]⟩ ⟨"", "", "", 50⟩ [OptT.withTimestampTries 50] rfl).2 rfl

/-- Modelled from the spec: the windowed-lateness contract each
ResolvedSource exposes (§4.5); the consuming engine's implementation files
are not under src.  A source's state is its configured window and the
event-time timestamps it has emitted so far, in emission order. -/
structure SrcState where
  window : Int
  emitted : List Int
deriving DecidableEq, Repr

/-- Modelled from the spec: the consumer may treat time point `T` as closed
for a source exactly when the source has already emitted some event at time
`T' ≥ T + window`. -/
def closedB (s : SrcState) (T : Int) : Bool :=
  s.emitted.any fun t => decide (T + s.window ≤ t)

/-- The source emits one more event with timestamp `t`. -/
def emit (s : SrcState) (t : Int) : SrcState :=
  { s with emitted := s.emitted ++ [t] }

/-- C9: a time point `T` is treated as closed only when some already
emitted event has timestamp `T' ≥ T + window` — in particular never before
the first emission; a closure decision is never retracted by a later
emission (the floor only advances as later emissions arrive); and every
closed `T` lies at least `window` below the most recently seen maximal
timestamp, so no still-unseen record admitted later than `T` can lie more
than `window` behind that maximum. -/
theorem window_closure_floor (s : SrcState) (T u : Int)
    (h : closedB s T = true) :
    (∃ t ∈ s.emitted, T + s.window ≤ t) ∧
    s.emitted ≠ [] ∧
    closedB (emit s u) T = true ∧
    (∀ tmax ∈ s.emitted, (∀ t ∈ s.emitted, t ≤ tmax) → T ≤ tmax - s.window) := by
  have hex : ∃ t ∈ s.emitted, T + s.window ≤ t := by
    simpa [closedB] using h
  obtain ⟨t0, ht0, hle⟩ := hex
  refine ⟨⟨t0, ht0, hle⟩, ?_, ?_, ?_⟩
  · intro hnil
    rw [hnil] at ht0
    simp at ht0
  · simp only [closedB, emit, List.any_append, Bool.or_eq_true]
    left
    simpa [closedB] using h
  · intro tmax _ hmax
    have hbound := hmax t0 ht0
    omega

/-- Witness for C9: a source with window 5 and emissions at 10 and 15 may
close `T = 10` (15 ≥ 10 + 5); closure survives a further emission at 20,
and 10 ≤ 15 − 5. -/
theorem window_closure_floor_witness :
    closedB ⟨5, [10, 15]⟩ 10 = true ∧
    ((∃ t ∈ (SrcState.mk 5 [10, 15]).emitted,
        (10 : Int) + (SrcState.mk 5 [10, 15]).window ≤ t) ∧
      (SrcState.mk 5 [10, 15]).emitted ≠ [] ∧
      closedB (emit ⟨5, [10, 15]⟩ 20) 10 = true ∧
      (∀ tmax ∈ (SrcState.mk 5 [10, 15]).emitted,
        (∀ t ∈ (SrcState.mk 5 [10, 15]).emitted, t ≤ tmax) →
        (10 : Int) ≤ tmax - (SrcState.mk 5 [10, 15]).window)) :=
  ⟨by decide, window_closure_floor ⟨5, [10, 15]⟩ 10 20 (by decide)⟩
